import Mathlib

/-
Shallow embedding of `tapioca/core/manifest.py` (the manifest data model, the
block deduplication registry, serialization helpers, the diff engine and the
builders), together with proofs about the embedded operations.

Conventions used throughout:
* block hashes are opaque byte strings produced elsewhere; they are modelled
  as natural numbers (only equality of hashes is ever consumed);
* Python code that can raise is embedded as `Except String`-valued functions,
  the string naming the exception the interpreter would raise; methods that
  mutate an object are embedded by returning the updated value alongside the
  result;
* Python dicts (insertion ordered, unique keys) are modelled as association
  lists that append fresh keys at the end, with first-match lookup.
-/

/-- Block metadata descriptor `BlockInfo(hash, size)` of manifest.py
(a namedtuple with exactly the fields `hash` and `size`). -/
structure BlockInfo where
  hash : Nat
  size : Nat
  deriving DecidableEq, Repr

/-- File metadata descriptor `FileInfo(path, blocks)` of manifest.py: a
namedtuple with exactly the fields `path` and `blocks`.  Note that the source
namedtuple declares no `size` attribute and no `size` property is defined
anywhere in the class body, although several callers read `file_info.size`. -/
structure FileInfo where
  path : String
  blocks : List BlockInfo
  deriving DecidableEq, Repr

/-- In-memory manifest `Manifest(files, max_block_size)` of manifest.py.
Its constructor has two required positional parameters. -/
structure Manifest where
  files : List FileInfo
  max_block_size : Nat
  deriving DecidableEq, Repr

/-- Modelled from the spec: the generated protobuf class `ManifestBlockProto`
lives in `tapioca/core/manifest_pb2`, which is absent from the sources (only
its importer `manifest.py` is present).  The spec wire format gives
`Block (hash: bytes, size: optional uint)`; an unset optional field is `none`,
and reading an unset numeric protobuf field yields the protobuf default 0
(the spec's `default = max_block_size` rule is implemented by the explicit
`HasField` test in `BlockInfo.from_proto`, not by the field itself). -/
structure ManifestBlockProto where
  hash : Nat
  size : Option Nat
  deriving DecidableEq, Repr

/-- Modelled from the spec: the generated protobuf class `ManifestBlockRange`
lives in `tapioca/core/manifest_pb2`, absent from the sources.  The spec wire
format gives `Range (start_id: uint, size: uint)` and specifies that range
compression turns a maximal run of consecutive ids into one `(start_id, size)`
entry whose size is the run length, a single id standing for a one-block
range; accordingly a range freshly constructed from a bare `start_id` (as in
`ManifestBlockRange(start_id=block_id)` in `FileInfo._get_block_ranges`)
carries one block, i.e. size 1. -/
structure ManifestBlockRange where
  start_id : Nat
  size : Nat
  deriving DecidableEq, Repr

/-- Modelled from the spec: serialized tree node
`Item (name, children, block_ranges)` of the wire format.  Only the fields
read by the operations embedded here are carried: the `children` map drives
the trie traversal of `_generate_file_paths`, which no verified operation
consumes. -/
structure ManifestItemProto where
  name : String
  blocks : List ManifestBlockRange
  deriving DecidableEq, Repr

/-- Modelled from the spec: serialized manifest
`Manifest (max_block_size, blocks, items)` of the wire format. -/
structure ManifestProto where
  max_block_size : Nat
  blocks : List ManifestBlockProto
  items : List ManifestItemProto
  deriving DecidableEq, Repr

/-- Embedding of `BlockInfo.from_proto(proto, manifest=None)`: the size is
read from the proto field (an unset field reads as the protobuf default 0);
when a manifest is supplied and the field is unset, the manifest-wide
`max_block_size` is used instead. -/
def BlockInfo.from_proto (proto : ManifestBlockProto) (manifest : Option ManifestProto) :
    BlockInfo :=
  let size := proto.size.getD 0
  let size :=
    match manifest with
    | some m => if proto.size.isNone then m.max_block_size else size
    | none => size
  ⟨proto.hash, size⟩

/-- Embedding of `BlockInfo.to_proto`: both fields are written, so the
resulting proto always has its size field set. -/
def BlockInfo.to_proto (b : BlockInfo) : ManifestBlockProto :=
  ⟨b.hash, some b.size⟩

/-- Embedding of `FileInfo._get_blocks(proto, manifest)`: for each serialized
range, bounds-check `start + size` against the manifest block table
(`start < 0` cannot occur for a uint) and expand the range to the listed
blocks.  Faithful to the source, each expanded block is decoded by
`BlockInfo.from_proto(manifest.blocks[idx])`, i.e. WITHOUT forwarding the
`manifest` argument, so unset sizes decode to the protobuf default 0. -/
def FileInfo._get_blocks (proto : ManifestItemProto) (manifest : ManifestProto) :
    Except String (List BlockInfo) :=
  proto.blocks.foldlM
    (fun acc block_range =>
      let start := block_range.start_id
      let stop := start + block_range.size
      if stop > manifest.blocks.length then
        Except.error "IndexError: The block range described is not valid."
      else
        Except.ok
          (acc ++ ((manifest.blocks.drop start).take block_range.size).map
            (fun bp => BlockInfo.from_proto bp none)))
    []

/-- Lookup in a Python dict modelled as an association list (first match). -/
def dictGet {α β : Type} [DecidableEq α] : List (α × β) → α → Option β
  | [], _ => none
  | (k, v) :: rest, key => if key = k then some v else dictGet rest key

/-- Dedup registry `BlockRegistry` of manifest.py: the ordered list of unique
blocks, the hash-to-id dict, and the optional parent registry. -/
inductive BlockRegistry where
  | mk (blocks : List BlockInfo) (block_map : List (Nat × Nat))
      (parent : Option BlockRegistry)

/-- Field accessor for the `blocks` list of a registry. -/
def BlockRegistry.blocks : BlockRegistry → List BlockInfo
  | .mk bs _ _ => bs

/-- Field accessor for the hash-to-id dict of a registry. -/
def BlockRegistry.block_map : BlockRegistry → List (Nat × Nat)
  | .mk _ m _ => m

/-- Field accessor for the optional parent registry. -/
def BlockRegistry.parent : BlockRegistry → Option BlockRegistry
  | .mk _ _ p => p

/-- Replaces the parent field of a registry (used to thread the update that
Python performs by mutating `self.parent` in place). -/
def BlockRegistry.setParent : BlockRegistry → Option BlockRegistry → BlockRegistry
  | .mk bs m _, p => .mk bs m p

/-- Embedding of `BlockRegistry._register(block)`: a hash already present
returns its existing id after `assert block.size == self.blocks[idx].size`
(a failing assert raises); a fresh hash is appended to the block list and to
the dict under the next dense id. -/
def BlockRegistry._register (r : BlockRegistry) (block : BlockInfo) :
    Except String (Nat × BlockRegistry) :=
  match dictGet r.block_map block.hash with
  | some idx =>
      match r.blocks.get? idx with
      | some stored =>
          if block.size = stored.size then
            Except.ok (idx, r)
          else
            Except.error "AssertionError: block.size == self.blocks[idx].size"
      | none => Except.error "IndexError: list index out of range"
  | none =>
      Except.ok (r.blocks.length,
        .mk (r.blocks ++ [block]) (r.block_map ++ [(block.hash, r.blocks.length)])
          r.parent)

/-- Embedding of `BlockRegistry.register(block)`: when a parent registry was
provided at construction, the block is first registered with the parent, then
with this registry. -/
def BlockRegistry.register (r : BlockRegistry) (block : BlockInfo) :
    Except String (Nat × BlockRegistry) :=
  match r.parent with
  | none => r._register block
  | some p =>
      match p._register block with
      | Except.error e => Except.error e
      | Except.ok res => (r.setParent (some res.2))._register block

/-- Embedding of `BlockRegistry.get_id(block)`: dict lookup by hash, no
insertion. -/
def BlockRegistry.get_id (r : BlockRegistry) (block : BlockInfo) : Option Nat :=
  dictGet r.block_map block.hash

/-- The loop of `FileInfo._get_block_ranges`, processing the file's registry
block ids in order.  The state carries Python's `current_id` and
`current_range` locals, which are `None` together before the first iteration.
Each iteration builds `ManifestBlockRange(start_id=block_id)` (size 1, see
`ManifestBlockRange`); if its start equals `current_id` the open range grows
by that size, otherwise the open range (if any) is emitted and the fresh
range becomes the open one. -/
def getBlockRangesLoop : List Nat → Option (Nat × ManifestBlockRange) →
    List ManifestBlockRange
  | [], none => []
  | [], some st => [st.2]
  | block_id :: rest, none =>
      getBlockRangesLoop rest (some (block_id + 1, ⟨block_id, 1⟩))
  | block_id :: rest, some st =>
      if block_id = st.1 then
        getBlockRangesLoop rest (some (st.1 + 1, ⟨st.2.start_id, st.2.size + 1⟩))
      else
        st.2 :: getBlockRangesLoop rest (some (block_id + 1, ⟨block_id, 1⟩))

/-- Embedding of `FileInfo._get_block_ranges(block_registry)` over the
sequence of registry ids of the file's blocks (`block_registry.get_id(block)`
per block; in `Manifest.to_proto` every block is registered beforehand, so
every lookup succeeds). -/
def _get_block_ranges (ids : List Nat) : List ManifestBlockRange :=
  getBlockRangesLoop ids none

/-- The run `start, start+1, ..., start+len-1` of consecutive ids. -/
def runOf : Nat → Nat → List Nat
  | _, 0 => []
  | s, n + 1 => s :: runOf (s + 1) n

/-- Prepends the run `(sid, sz)` to a range list, merging it with the head
range when that head starts exactly where the run ends. -/
def consMerge (sid sz : Nat) : List ManifestBlockRange → List ManifestBlockRange
  | [] => [⟨sid, sz⟩]
  | r :: rs =>
      if sid + sz = r.start_id then ⟨sid, sz + r.size⟩ :: rs
      else ⟨sid, sz⟩ :: r :: rs

/-- Specification of range compression, in the words of the spec: every
maximal run of consecutive ids becomes a single `(start_id, size)` entry
whose size is the run length, and any id that breaks contiguity starts a new
range (each id contributes a one-block run, merged into the following range
exactly when they are contiguous). -/
def rangeCompressSpec : List Nat → List ManifestBlockRange
  | [] => []
  | block_id :: rest => consMerge block_id 1 (rangeCompressSpec rest)

/-- Concatenated expansion of a range list back into the id sequence it
describes. -/
def expandRanges : List ManifestBlockRange → List Nat
  | [] => []
  | r :: rs => runOf r.start_id r.size ++ expandRanges rs

/-- No range in the list ends exactly where its successor starts: adjacent
ranges can never be merged, which is the minimality half of "minimal ordered
ranges". -/
def noAdjacentContiguous : List ManifestBlockRange → Prop
  | [] => True
  | [_] => True
  | a :: b :: rest => a.start_id + a.size ≠ b.start_id ∧ noAdjacentContiguous (b :: rest)

/-- Embedding of the size clean-up loop at the end of `Manifest.to_proto`:
every block of the serialized block table whose (read) size equals the
manifest-wide `max_block_size` has its size field cleared. -/
def clearRedundantSizes (blocks : List ManifestBlockProto) (max_block_size : Nat) :
    List ManifestBlockProto :=
  blocks.map fun b => if b.size.getD 0 = max_block_size then ⟨b.hash, none⟩ else b

/-- Embedding of `Manifest.from_proto(proto)`.  Its first statement is
`manifest = Manifest()`, but `Manifest.__init__` has the two required
positional parameters `files` and `max_block_size`, so every call raises
`TypeError` immediately (were that repaired, the body would next call
`_generate_file_paths(manifest)` with one argument instead of three and the
nonexistent method `manifest.add_file`). -/
def Manifest.from_proto (_proto : ManifestProto) : Except String Manifest :=
  Except.error
    "TypeError: Manifest.__init__ missing 2 required positional arguments: files and max_block_size"

/-- Embedding of `Manifest.total_space`: `sum(file_info.size for file_info in
self.files)`.  `FileInfo` is `namedtuple(FileInfo, path blocks)` and defines
no `size` attribute, so the first element drawn from a nonempty file list
raises `AttributeError`; the sum over an empty manifest is 0. -/
def Manifest.total_space (m : Manifest) : Except String Nat :=
  match m.files with
  | [] => Except.ok 0
  | _ :: _ => Except.error "AttributeError: FileInfo object has no attribute size"

/-- Modelled from the spec: a file size is the sum of its block sizes (the
source `FileInfo` never defines `size`; this definition captures the value
the spec's `total_space` sentence prescribes). -/
def FileInfo.specSize (f : FileInfo) : Nat :=
  (f.blocks.map BlockInfo.size).sum

/-- Modelled from the spec: `total_space` as the spec words it, the sum over
all files of the file size. -/
def Manifest.specTotalSpace (m : Manifest) : Nat :=
  (m.files.map FileInfo.specSize).sum

/-- The per-file loop of `Manifest.preallocate_space`: for each file the
containing directory is created, the file is created by `open(full_path,
'wb')`, and then `f.seek(file_info.size)` reads the nonexistent `size`
attribute of `FileInfo` and raises `AttributeError` — after the first file
has already been created.  Returns the file paths created so far together
with the outcome. -/
def preallocLoop : List FileInfo → List String × Except String Unit
  | [] => ([], Except.ok ())
  | f :: _ =>
      ([f.path], Except.error "AttributeError: FileInfo object has no attribute size")

/-- Embedding of `Manifest.preallocate_space(root_dir)`.  The filesystem is
abstracted: the free space that `shutil.disk_usage(root_dir).free` would
report is passed as `free`, and the result lists the file paths created
(paired with the outcome).  The source first evaluates `self.total_space`,
then compares it against the free space, raising `RuntimeError` when space is
insufficient, and only then enters the per-file creation loop. -/
def Manifest.preallocate_space (m : Manifest) (free : Nat) :
    List String × Except String Unit :=
  match m.total_space with
  | Except.error e => ([], Except.error e)
  | Except.ok ts =>
      if free < ts then
        ([], Except.error "RuntimeError: Cannot allocate more space to drive.")
      else
        preallocLoop m.files

/-- Per-file diff record `FileDiff` of manifest.py. -/
structure FileDiff where
  deleted : Bool
  new_size : Option Nat
  changed_blocks : List (Nat × (Option Nat × Option Nat))
  deriving DecidableEq, Repr

/-- Embedding of `FileDiff.__init__(remote_file, current_file)`.  With a
remote file present, `self.new_size = remote_file.size` reads the nonexistent
`size` attribute of `FileInfo` and raises `AttributeError`; with the remote
file absent, `self._generate_changed_blocks(remote_file, current_file)`
passes three positional arguments (the bound `self` included) to the
two-parameter function `_generate_changed_blocks` (defined without a `self`
parameter) and raises `TypeError`.  Construction therefore never succeeds. -/
def FileDiff.init (remote_file _current_file : Option FileInfo) :
    Except String FileDiff :=
  match remote_file with
  | some _ => Except.error "AttributeError: FileInfo object has no attribute size"
  | none =>
      Except.error
        "TypeError: _generate_changed_blocks() takes 2 positional arguments but 3 were given"

/-- Embedding of `FileDiff.has_changed`: deleted, or some block index
changed. -/
def FileDiff.has_changed (d : FileDiff) : Bool :=
  d.deleted || d.changed_blocks.length != 0

/-- Manifest-level diff record `ManifestDiff` of manifest.py. -/
structure ManifestDiff where
  changed_files : List (String × FileDiff)
  deriving DecidableEq, Repr

/-- Embedding of `ManifestDiff.__init__(remote_manifest, current_manifest)`:
`self._generate_changed_files(remote_manifest, current_manifest)` passes
three positional arguments (the bound `self` included) to the two-parameter
function `_generate_changed_files` (defined without a `self` parameter), so
construction always raises `TypeError` before any diff is computed (were that
repaired, the body would next evaluate `set(...) + set(...)`, unsupported for
sets, and call `c_files.keys` without parentheses). -/
def ManifestDiff.init (_remote_manifest _current_manifest : Manifest) :
    Except String ManifestDiff :=
  Except.error
    "TypeError: _generate_changed_files() takes 2 positional arguments but 3 were given"

/-- Embedding of `ManifestDiff.has_changed`: some retained file diff
exists. -/
def ManifestDiff.has_changed (d : ManifestDiff) : Bool :=
  d.changed_files.length != 0

/-- File builder `FileInfoBuilder(path, max_block_size)` of manifest.py,
accumulating the ordered block list of one file. -/
structure FileInfoBuilder where
  path : String
  blocks : List BlockInfo
  max_block_size : Nat
  deriving DecidableEq, Repr

/-- Embedding of `FileInfoBuilder.append_block(block_info)`: a block bigger
than `max_block_size` raises `RuntimeError` before the list is touched,
otherwise the block is appended.  The updated builder is returned alongside
the outcome (on the raising path the builder is the untouched one). -/
def FileInfoBuilder.append_block (b : FileInfoBuilder) (block_info : BlockInfo) :
    Except String Unit × FileInfoBuilder :=
  if b.max_block_size < block_info.size then
    (Except.error
      "RuntimeError: Attempted to add a block bigger than the max_block_size of the manifest",
     b)
  else
    (Except.ok (), ⟨b.path, b.blocks ++ [block_info], b.max_block_size⟩)

/-- Embedding of `FileInfoBuilder.build()`. -/
def FileInfoBuilder.build (b : FileInfoBuilder) : FileInfo :=
  ⟨b.path, b.blocks⟩

/-- Manifest builder `ManifestBuilder(max_block_size)` of manifest.py; its
`files` dict (path to `FileInfoBuilder`, insertion ordered) is modelled as an
association list. -/
structure ManifestBuilder where
  files : List (String × FileInfoBuilder)
  max_block_size : Nat
  deriving DecidableEq, Repr

/-- Embedding of `ManifestBuilder.add_file(path)`: an existing entry for the
path is returned as is (the dict untouched); otherwise a fresh
`FileInfoBuilder(path, self.max_block_size)` is stored under the path and
returned. -/
def ManifestBuilder.add_file (mb : ManifestBuilder) (path : String) :
    FileInfoBuilder × ManifestBuilder :=
  match dictGet mb.files path with
  | some builder => (builder, mb)
  | none =>
      (⟨path, [], mb.max_block_size⟩,
       ⟨mb.files ++ [(path, ⟨path, [], mb.max_block_size⟩)], mb.max_block_size⟩)

/-- Embedding of `ManifestBuilder.build()`. -/
def ManifestBuilder.build (mb : ManifestBuilder) : Manifest :=
  ⟨mb.files.map (fun kv => kv.2.build), mb.max_block_size⟩

/-- Unfolding equation: the loop on a nonempty id list with an open range. -/
theorem getBlockRangesLoop_cons_some (block_id : Nat) (rest : List Nat)
    (cid : Nat) (r : ManifestBlockRange) :
    getBlockRangesLoop (block_id :: rest) (some (cid, r)) =
      if block_id = cid then
        getBlockRangesLoop rest (some (cid + 1, ⟨r.start_id, r.size + 1⟩))
      else
        r :: getBlockRangesLoop rest (some (block_id + 1, ⟨block_id, 1⟩)) := rfl

/-- Prepending a run that cannot merge with the head of `consMerge id k l`
(whose head always starts at `id`) just conses it on. -/
theorem consMerge_ne (sid sz id k : Nat) (l : List ManifestBlockRange)
    (h : sid + sz ≠ id) :
    consMerge sid sz (consMerge id k l) = ⟨sid, sz⟩ :: consMerge id k l := by
  cases l with
  | nil => simp [consMerge, h]
  | cons r rs =>
      by_cases h2 : id + k = r.start_id
      · simp [consMerge, h2, h]
      · simp [consMerge, h2, h]

/-- Growing an open run by one id and then prepending is the same as
prepending the run one longer. -/
theorem consMerge_merge (sid sz : Nat) (l : List ManifestBlockRange) :
    consMerge sid sz (consMerge (sid + sz) 1 l) = consMerge sid (sz + 1) l := by
  cases l with
  | nil => simp [consMerge]
  | cons r rs =>
      by_cases h : sid + sz + 1 = r.start_id
      · have h3 : sid + (sz + 1) = r.start_id := by omega
        have h4 : sz + (1 + r.size) = sz + 1 + r.size := by omega
        simp [consMerge, h, h3, h4]
      · have h3 : ¬ sid + (sz + 1) = r.start_id := by omega
        simp [consMerge, h, h3]

/-- The loop with an open run `(sid, sz)` (so `current_id = sid + sz`)
computes the spec compression of the remaining ids, merged with that open
run. -/
theorem getBlockRangesLoop_some_eq (ids : List Nat) :
    ∀ sid sz : Nat,
      getBlockRangesLoop ids (some (sid + sz, ⟨sid, sz⟩)) =
        consMerge sid sz (rangeCompressSpec ids) := by
  induction ids with
  | nil => intro sid sz; rfl
  | cons block_id rest ih =>
      intro sid sz
      rw [getBlockRangesLoop_cons_some]
      by_cases h : block_id = sid + sz
      · rw [if_pos h, h]
        calc getBlockRangesLoop rest (some (sid + sz + 1, ⟨sid, sz + 1⟩))
            = consMerge sid (sz + 1) (rangeCompressSpec rest) := ih sid (sz + 1)
          _ = consMerge sid sz (consMerge (sid + sz) 1 (rangeCompressSpec rest)) :=
              (consMerge_merge sid sz (rangeCompressSpec rest)).symm
          _ = consMerge sid sz (rangeCompressSpec ((sid + sz) :: rest)) := rfl
      · rw [if_neg h]
        calc (⟨sid, sz⟩ : ManifestBlockRange) ::
              getBlockRangesLoop rest (some (block_id + 1, ⟨block_id, 1⟩))
            = ⟨sid, sz⟩ :: consMerge block_id 1 (rangeCompressSpec rest) := by
              rw [ih block_id 1]
          _ = consMerge sid sz (consMerge block_id 1 (rangeCompressSpec rest)) :=
              (consMerge_ne sid sz block_id 1 (rangeCompressSpec rest) (Ne.symm h)).symm
          _ = consMerge sid sz (rangeCompressSpec (block_id :: rest)) := rfl

/-- The source loop agrees with the spec compression on every id sequence. -/
theorem _get_block_ranges_eq_spec (ids : List Nat) :
    _get_block_ranges ids = rangeCompressSpec ids := by
  cases ids with
  | nil => rfl
  | cons block_id rest =>
      show getBlockRangesLoop rest (some (block_id + 1, ⟨block_id, 1⟩)) =
        rangeCompressSpec (block_id :: rest)
      exact getBlockRangesLoop_some_eq rest block_id 1

/-- Expanding `consMerge id 1 l` prepends exactly the id. -/
theorem expandRanges_consMerge (id : Nat) (l : List ManifestBlockRange) :
    expandRanges (consMerge id 1 l) = id :: expandRanges l := by
  cases l with
  | nil => rfl
  | cons r rs =>
      by_cases h : id + 1 = r.start_id
      · simp only [consMerge, if_pos h, expandRanges]
        have h1 : (1 : Nat) + r.size = r.size + 1 := Nat.add_comm 1 r.size
        rw [h1]
        show id :: (runOf (id + 1) r.size ++ expandRanges rs) =
          id :: (runOf r.start_id r.size ++ expandRanges rs)
        rw [h]
      · simp only [consMerge, if_neg h, expandRanges]
        rfl

/-- Expanding the spec compression of an id sequence recovers the sequence:
the ranges describe exactly the ids, in order. -/
theorem expandRanges_rangeCompressSpec (ids : List Nat) :
    expandRanges (rangeCompressSpec ids) = ids := by
  induction ids with
  | nil => rfl
  | cons block_id rest ih =>
      show expandRanges (consMerge block_id 1 (rangeCompressSpec rest)) =
        block_id :: rest
      rw [expandRanges_consMerge, ih]

/-- `consMerge id 1` preserves the no-adjacent-contiguity invariant. -/
theorem noAdjacentContiguous_consMerge (id : Nat) (l : List ManifestBlockRange)
    (h : noAdjacentContiguous l) :
    noAdjacentContiguous (consMerge id 1 l) := by
  cases l with
  | nil => trivial
  | cons r rs =>
      by_cases hm : id + 1 = r.start_id
      · simp only [consMerge, if_pos hm]
        cases rs with
        | nil => trivial
        | cons b rest =>
            obtain ⟨hr, h2⟩ := h
            refine ⟨?_, h2⟩
            show id + (1 + r.size) ≠ b.start_id
            omega
      · simp only [consMerge, if_neg hm]
        exact ⟨hm, h⟩

/-- The spec compression never emits two adjacent mergeable ranges. -/
theorem noAdjacentContiguous_rangeCompressSpec (ids : List Nat) :
    noAdjacentContiguous (rangeCompressSpec ids) := by
  induction ids with
  | nil => trivial
  | cons block_id rest ih => exact noAdjacentContiguous_consMerge block_id _ ih

/-- `consMerge id 1` preserves positivity of every emitted size. -/
theorem consMerge_pos (id : Nat) (l : List ManifestBlockRange)
    (h : ∀ r ∈ l, 0 < r.size) :
    ∀ r ∈ consMerge id 1 l, 0 < r.size := by
  cases l with
  | nil =>
      intro r hr
      simp only [consMerge, List.mem_singleton] at hr
      subst hr
      exact Nat.one_pos
  | cons q qs =>
      by_cases hm : id + 1 = q.start_id
      · simp only [consMerge, if_pos hm]
        intro r hr
        rcases List.mem_cons.mp hr with h1 | h2
        · subst h1
          show 0 < 1 + q.size
          omega
        · exact h r (List.mem_cons_of_mem q h2)
      · simp only [consMerge, if_neg hm]
        intro r hr
        rcases List.mem_cons.mp hr with h1 | h2
        · subst h1; exact Nat.one_pos
        · exact h r h2

/-- Every range the spec compression emits is nonempty. -/
theorem rangeCompressSpec_pos (ids : List Nat) :
    ∀ r ∈ rangeCompressSpec ids, 0 < r.size := by
  induction ids with
  | nil => intro r hr; cases hr
  | cons block_id rest ih => exact consMerge_pos block_id _ ih

/-- A key absent from the first dict is looked up in the appended one. -/
theorem dictGet_append_of_none {α β : Type} [DecidableEq α]
    (l1 l2 : List (α × β)) (k : α) (h : dictGet l1 k = none) :
    dictGet (l1 ++ l2) k = dictGet l2 k := by
  induction l1 with
  | nil => rfl
  | cons kv rest ih =>
      obtain ⟨a, b⟩ := kv
      by_cases hk : k = a
      · simp [dictGet, hk] at h
      · simp only [dictGet, if_neg hk] at h
        simpa [dictGet, hk] using ih h

/-- Looking up the index right past a list lands on the appended element. -/
theorem get?_append_length {α : Type} (l : List α) (a : α) :
    (l ++ [a]).get? l.length = some a := by
  induction l with
  | nil => rfl
  | cons x rest ih => exact ih

/-- Accessor reduction for the registry blocks field. -/
theorem BlockRegistry.blocks_mk (bs : List BlockInfo) (m : List (Nat × Nat))
    (p : Option BlockRegistry) : (BlockRegistry.mk bs m p).blocks = bs := rfl

/-- Accessor reduction for the registry dict field. -/
theorem BlockRegistry.block_map_mk (bs : List BlockInfo) (m : List (Nat × Nat))
    (p : Option BlockRegistry) : (BlockRegistry.mk bs m p).block_map = m := rfl

/-- Accessor reduction for the registry parent field. -/
theorem BlockRegistry.parent_mk (bs : List BlockInfo) (m : List (Nat × Nat))
    (p : Option BlockRegistry) : (BlockRegistry.mk bs m p).parent = p := rfl

/-- Writing back the parent a registry already has is the identity. -/
theorem BlockRegistry.setParent_self (r : BlockRegistry) (p : Option BlockRegistry)
    (h : r.parent = p) : r.setParent p = r := by
  cases r with
  | mk bs m par =>
      rw [BlockRegistry.parent_mk] at h
      rw [BlockRegistry.setParent, h]

/-- What a successful `_register` guarantees about the resulting registry:
the hash maps to the returned id, the block stored at that id has the
registered size, and the parent field is untouched. -/
theorem _register_ok_post (r0 : BlockRegistry) (b0 : BlockInfo) (i : Nat)
    (r : BlockRegistry) (h : r0._register b0 = Except.ok (i, r)) :
    dictGet r.block_map b0.hash = some i ∧
    (∃ stored, r.blocks.get? i = some stored ∧ stored.size = b0.size) ∧
    r.parent = r0.parent := by
  unfold BlockRegistry._register at h
  split at h
  next idx hm =>
    split at h
    next stored hb =>
      split at h
      next hs =>
        injection h with h2
        injection h2 with hi hr
        subst hi
        subst hr
        exact ⟨hm, ⟨stored, hb, hs.symm⟩, rfl⟩
      next hs => exact absurd h (by simp)
    next hb => exact absurd h (by simp)
  next hm =>
    injection h with h2
    injection h2 with hi hr
    subst hi
    subst hr
    refine ⟨?_, ⟨b0, ?_, rfl⟩, rfl⟩
    · rw [BlockRegistry.block_map_mk, dictGet_append_of_none _ _ _ hm]
      simp [dictGet]
    · rw [BlockRegistry.blocks_mk]
      exact get?_append_length r0.blocks b0

/-- What a successful `register` guarantees: the registry that comes back
resolves the hash to the returned id with the registered size, and its parent
(when present) also resolves the hash to some id with that size. -/
theorem register_ok_post (r0 : BlockRegistry) (b0 : BlockInfo) (i : Nat)
    (r : BlockRegistry) (h : r0.register b0 = Except.ok (i, r)) :
    dictGet r.block_map b0.hash = some i ∧
    (∃ stored, r.blocks.get? i = some stored ∧ stored.size = b0.size) ∧
    (∀ p, r.parent = some p →
      ∃ j storedp, dictGet p.block_map b0.hash = some j ∧
        p.blocks.get? j = some storedp ∧ storedp.size = b0.size) := by
  unfold BlockRegistry.register at h
  split at h
  next hp =>
    obtain ⟨h1, h2, h3⟩ := _register_ok_post r0 b0 i r h
    refine ⟨h1, h2, ?_⟩
    intro p hpp
    rw [h3, hp] at hpp
    cases hpp
  next p hp =>
    split at h
    next e he => exact absurd h (by simp)
    next res hreg =>
      obtain ⟨p1, p2, _⟩ := _register_ok_post p b0 res.1 res.2 hreg
      obtain ⟨s1, s2, s3⟩ :=
        _register_ok_post (r0.setParent (some res.2)) b0 i r h
      refine ⟨s1, s2, ?_⟩
      intro q hq
      rw [s3] at hq
      have hq2 : (some res.2 : Option BlockRegistry) = some q := by
        rw [← hq]
        cases r0 with
        | mk bs m par => rfl
      injection hq2 with hq3
      subst hq3
      exact ⟨res.1, p2.choose, p1, p2.choose_spec.1, p2.choose_spec.2⟩

/-- `register` succeeds without changing anything when the block's hash is
already known everywhere with the registered size. -/
theorem register_hit (r : BlockRegistry) (b : BlockInfo) (i : Nat)
    (stored : BlockInfo)
    (h1 : dictGet r.block_map b.hash = some i)
    (h2 : r.blocks.get? i = some stored)
    (h3 : stored.size = b.size)
    (h4 : ∀ p, r.parent = some p →
      ∃ j storedp, dictGet p.block_map b.hash = some j ∧
        p.blocks.get? j = some storedp ∧ storedp.size = b.size) :
    r.register b = Except.ok (i, r) := by
  have hself : r._register b = Except.ok (i, r) := by
    simp only [BlockRegistry._register, h1, h2]
    rw [if_pos h3.symm]
  unfold BlockRegistry.register
  split
  next hp => exact hself
  next p hp =>
    obtain ⟨j, sp, hj1, hj2, hj3⟩ := h4 p hp
    have hpreg : p._register b = Except.ok (j, p) := by
      simp only [BlockRegistry._register, hj1, hj2]
      rw [if_pos hj3.symm]
    rw [hpreg]
    show (r.setParent (some p))._register b = Except.ok (i, r)
    rw [BlockRegistry.setParent_self r (some p) hp]
    exact hself

/-- `register` fails when the block's hash is known (locally, and in the
parent when present) with a size different from the registered one. -/
theorem register_conflict (r : BlockRegistry) (b : BlockInfo) (i : Nat)
    (stored : BlockInfo)
    (h1 : dictGet r.block_map b.hash = some i)
    (h2 : r.blocks.get? i = some stored)
    (h3 : stored.size ≠ b.size)
    (h4 : ∀ p, r.parent = some p →
      ∃ j storedp, dictGet p.block_map b.hash = some j ∧
        p.blocks.get? j = some storedp ∧ storedp.size ≠ b.size) :
    ∃ msg, r.register b = Except.error msg := by
  have hself : r._register b =
      Except.error "AssertionError: block.size == self.blocks[idx].size" := by
    simp only [BlockRegistry._register, h1, h2]
    rw [if_neg (fun hh => h3 hh.symm)]
  unfold BlockRegistry.register
  split
  next hp => exact ⟨_, hself⟩
  next p hp =>
    obtain ⟨j, sp, hj1, hj2, hj3⟩ := h4 p hp
    have hpreg : p._register b =
        Except.error "AssertionError: block.size == self.blocks[idx].size" := by
      simp only [BlockRegistry._register, hj1, hj2]
      rw [if_neg (fun hh => hj3 hh.symm)]
    rw [hpreg]
    exact ⟨_, rfl⟩

/-- Claim C1: `Manifest.from_proto` never yields a manifest at all — its
first statement constructs `Manifest()` without the required `files` and
`max_block_size` arguments — so decoding the encoding of a manifest cannot
yield a manifest equal to the original: decoding always raises. -/
theorem C1_from_proto_always_raises (proto : ManifestProto) :
    Manifest.from_proto proto =
      Except.error
        "TypeError: Manifest.__init__ missing 2 required positional arguments: files and max_block_size" :=
  rfl

/-- Claim C2: during serialization a file's sequence of registry block ids is
compressed into minimal ordered ranges.  The source loop agrees with the
maximal-run compression `rangeCompressSpec`; the emitted ranges expand back
to exactly the id sequence, no two adjacent ranges are mergeable, and every
range is nonempty — so every maximal run of consecutive ids becomes a single
`(start_id, size)` entry whose size is the run length and a contiguity break
starts a new range.  In particular `[5,6,7]` encodes as the one range
`(5,3)` and `[5,9]` as two ranges. -/
theorem C2_range_compression :
    (∀ ids, _get_block_ranges ids = rangeCompressSpec ids) ∧
    (∀ ids, expandRanges (_get_block_ranges ids) = ids) ∧
    (∀ ids, noAdjacentContiguous (_get_block_ranges ids)) ∧
    (∀ ids, ∀ r ∈ _get_block_ranges ids, 0 < r.size) ∧
    _get_block_ranges [5, 6, 7] = [⟨5, 3⟩] ∧
    _get_block_ranges [5, 9] = [⟨5, 1⟩, ⟨9, 1⟩] := by
  refine ⟨_get_block_ranges_eq_spec, ?_, ?_, ?_, by decide, by decide⟩
  · intro ids
    rw [_get_block_ranges_eq_spec]
    exact expandRanges_rangeCompressSpec ids
  · intro ids
    rw [_get_block_ranges_eq_spec]
    exact noAdjacentContiguous_rangeCompressSpec ids
  · intro ids
    rw [_get_block_ranges_eq_spec]
    exact rangeCompressSpec_pos ids

/-- Claim C3: encoding does omit a block's size field exactly when the size
equals `max_block_size` (first conjunct), and `BlockInfo.from_proto` given
the manifest does decode an unset size as `max_block_size` (second
conjunct); but the actual decode path `FileInfo._get_blocks` calls
`BlockInfo.from_proto` without the manifest argument, so on a manifest with
`max_block_size = 4` a block with unset size decodes with size 0, not 4
(third conjunct). -/
theorem C3_size_omission_and_decode_default :
    (∀ (bs : List BlockInfo) (max_block_size : Nat),
        clearRedundantSizes (bs.map BlockInfo.to_proto) max_block_size =
          bs.map fun b =>
            ⟨b.hash, if b.size = max_block_size then none else some b.size⟩) ∧
    (∀ (h : Nat) (m : ManifestProto),
        BlockInfo.from_proto ⟨h, none⟩ (some m) = ⟨h, m.max_block_size⟩) ∧
    FileInfo._get_blocks ⟨"f", [⟨0, 1⟩]⟩ ⟨4, [⟨5, none⟩], []⟩ =
      Except.ok [⟨5, 0⟩] := by
  refine ⟨?_, fun h m => rfl, rfl⟩
  intro bs mbs
  induction bs with
  | nil => rfl
  | cons b rest ih =>
      by_cases hb : b.size = mbs
      · simp only [clearRedundantSizes, List.map_cons, BlockInfo.to_proto,
          Option.getD_some, if_pos hb] at ih ⊢
        rw [ih]
      · simp only [clearRedundantSizes, List.map_cons, BlockInfo.to_proto,
          Option.getD_some, if_neg hb] at ih ⊢
        rw [ih]

/-- Claim C4: `BlockRegistry.register` is idempotent by hash.  If a block
with the same hash and size was registered before (yielding id `i` and
registry `r`), registering again returns the same id `i` and leaves `r`
unchanged; if the sizes differ, registration fails (the consistency assert
raises) instead of returning an id or resolving the conflict. -/
theorem C4_register_idempotent_by_hash (r0 r : BlockRegistry)
    (b0 b : BlockInfo) (i : Nat)
    (h : r0.register b0 = Except.ok (i, r)) (hh : b.hash = b0.hash) :
    (b.size = b0.size → r.register b = Except.ok (i, r)) ∧
    (b.size ≠ b0.size → ∃ msg, r.register b = Except.error msg) := by
  obtain ⟨h1, ⟨stored, hb, hbs⟩, hpar⟩ := register_ok_post r0 b0 i r h
  constructor
  · intro hs
    refine register_hit r b i stored ?_ hb (hbs.trans hs.symm) ?_
    · rw [hh]
      exact h1
    · intro p hp
      obtain ⟨j, sp, a1, a2, a3⟩ := hpar p hp
      exact ⟨j, sp, by rw [hh]; exact a1, a2, a3.trans hs.symm⟩
  · intro hs
    refine register_conflict r b i stored ?_ hb
      (fun e => hs (e.symm.trans hbs)) ?_
    · rw [hh]
      exact h1
    · intro p hp
      obtain ⟨j, sp, a1, a2, a3⟩ := hpar p hp
      exact ⟨j, sp, by rw [hh]; exact a1, a2,
        fun e => hs (e.symm.trans a3)⟩

/-- Witness for C4 at a concrete registry: after registering the block with
hash 1 and size 4 into the empty registry, re-registering the same hash and
size returns the same id 0 and the unchanged registry, while the same hash
with size 7 fails. -/
theorem C4_register_idempotent_by_hash_witness :
    (BlockRegistry.mk [⟨1, 4⟩] [(1, 0)] none).register ⟨1, 4⟩ =
      Except.ok (0, BlockRegistry.mk [⟨1, 4⟩] [(1, 0)] none) ∧
    (∃ msg, (BlockRegistry.mk [⟨1, 4⟩] [(1, 0)] none).register ⟨1, 7⟩ =
      Except.error msg) := by
  have h1 := C4_register_idempotent_by_hash (BlockRegistry.mk [] [] none)
    (BlockRegistry.mk [⟨1, 4⟩] [(1, 0)] none) ⟨1, 4⟩ ⟨1, 4⟩ 0 (by rfl) rfl
  have h2 := C4_register_idempotent_by_hash (BlockRegistry.mk [] [] none)
    (BlockRegistry.mk [⟨1, 4⟩] [(1, 0)] none) ⟨1, 4⟩ ⟨1, 7⟩ 0 (by rfl) rfl
  exact ⟨h1.1 rfl, h2.2 (by decide)⟩

/-- Claim C5: constructing `ManifestDiff(m, m)` never succeeds — the
constructor passes three positional arguments to the two-parameter
`_generate_changed_files` (defined without `self`) and raises `TypeError` —
so the self-diff in particular cannot be constructed, let alone report
`has_changed = false`. -/
theorem C5_self_diff_raises (m : Manifest) :
    ManifestDiff.init m m =
      Except.error
        "TypeError: _generate_changed_files() takes 2 positional arguments but 3 were given" :=
  rfl

/-- Claim C6: at the claim's own example — remote blocks `[A,B,C]`, current
blocks `[A,X,C]` with `hash B ≠ hash X` — `FileDiff` records nothing:
construction raises `AttributeError` while reading `remote_file.size`
(`FileInfo` has no `size` attribute), before any positional comparison. -/
theorem C6_filediff_example_raises :
    FileDiff.init (some ⟨"f", [⟨1, 16⟩, ⟨2, 16⟩, ⟨3, 16⟩]⟩)
        (some ⟨"f", [⟨1, 16⟩, ⟨9, 16⟩, ⟨3, 16⟩]⟩) =
      Except.error "AttributeError: FileInfo object has no attribute size" :=
  rfl

/-- Claim C7: appending a block whose size exceeds the builder's
`max_block_size` fails (the oversize check raises before the append), and
the builder — in particular its accumulated block list — is returned
unchanged. -/
theorem C7_append_block_oversized_rejected (b : FileInfoBuilder)
    (block_info : BlockInfo) (h : b.max_block_size < block_info.size) :
    b.append_block block_info =
      (Except.error
        "RuntimeError: Attempted to add a block bigger than the max_block_size of the manifest",
       b) := by
  unfold FileInfoBuilder.append_block
  rw [if_pos h]

/-- Witness for C7 at a concrete builder: a block of size 5 against
`max_block_size = 4` is rejected and the builder is unchanged. -/
theorem C7_append_block_oversized_rejected_witness :
    (⟨"a", [⟨1, 4⟩], 4⟩ : FileInfoBuilder).append_block ⟨2, 5⟩ =
      (Except.error
        "RuntimeError: Attempted to add a block bigger than the max_block_size of the manifest",
       (⟨"a", [⟨1, 4⟩], 4⟩ : FileInfoBuilder)) :=
  C7_append_block_oversized_rejected ⟨"a", [⟨1, 4⟩], 4⟩ ⟨2, 5⟩ (by decide)

/-- Claim C8: on a manifest with at least one file, `preallocate_space`
raises `AttributeError` while evaluating `self.total_space` (`FileInfo` has
no `size` attribute), before the free-space comparison and before any file
is created — identically for zero free space and for ample free space, so
the `ResourceError`-style path of the claim is unreachable (though indeed no
file is created). -/
theorem C8_preallocate_space_fails_before_space_check :
    Manifest.preallocate_space ⟨[⟨"a", [⟨1, 4⟩]⟩], 4⟩ 0 =
      ([], Except.error "AttributeError: FileInfo object has no attribute size") ∧
    Manifest.preallocate_space ⟨[⟨"a", [⟨1, 4⟩]⟩], 4⟩ 1000000 =
      ([], Except.error "AttributeError: FileInfo object has no attribute size") :=
  ⟨rfl, rfl⟩

/-- Claim C9: `total_space` does not return the sum of the file sizes — on a
manifest with one file of blocks of sizes 4 and 2 it raises `AttributeError`
(`FileInfo` defines no `size`), while the value the claim prescribes is 6. -/
theorem C9_total_space_attribute_error :
    Manifest.total_space ⟨[⟨"a", [⟨1, 4⟩, ⟨2, 2⟩]⟩], 4⟩ =
      Except.error "AttributeError: FileInfo object has no attribute size" ∧
    Manifest.specTotalSpace ⟨[⟨"a", [⟨1, 4⟩, ⟨2, 2⟩]⟩], 4⟩ = 6 :=
  ⟨rfl, rfl⟩

/-- Claim C10: `ManifestBuilder.add_file` is idempotent per path: for a path
already present the stored `FileInfoBuilder` (with whatever blocks it has
accumulated) is returned as is and the file dict is unchanged; for a fresh
path a new empty `FileInfoBuilder` is created, stored and returned. -/
theorem C10_add_file_idempotent (mb : ManifestBuilder) (path : String) :
    (∀ fb, dictGet mb.files path = some fb → mb.add_file path = (fb, mb)) ∧
    (dictGet mb.files path = none →
      mb.add_file path =
        (⟨path, [], mb.max_block_size⟩,
         ⟨mb.files ++ [(path, ⟨path, [], mb.max_block_size⟩)],
          mb.max_block_size⟩)) := by
  constructor
  · intro fb hfb
    unfold ManifestBuilder.add_file
    rw [hfb]
  · intro hnone
    unfold ManifestBuilder.add_file
    rw [hnone]

/-- Witness for C10 at a concrete builder: re-adding path `a` (whose stored
builder already accumulated one block) returns that stored builder and
leaves the dict unchanged; adding the fresh path `b` stores a new empty
builder. -/
theorem C10_add_file_idempotent_witness :
    (ManifestBuilder.mk [("a", ⟨"a", [⟨1, 2⟩], 16⟩)] 16).add_file "a" =
      (⟨"a", [⟨1, 2⟩], 16⟩,
       ManifestBuilder.mk [("a", ⟨"a", [⟨1, 2⟩], 16⟩)] 16) ∧
    (ManifestBuilder.mk [("a", ⟨"a", [⟨1, 2⟩], 16⟩)] 16).add_file "b" =
      (⟨"b", [], 16⟩,
       ManifestBuilder.mk
        [("a", ⟨"a", [⟨1, 2⟩], 16⟩), ("b", ⟨"b", [], 16⟩)] 16) :=
  ⟨(C10_add_file_idempotent (ManifestBuilder.mk [("a", ⟨"a", [⟨1, 2⟩], 16⟩)] 16)
      "a").1 ⟨"a", [⟨1, 2⟩], 16⟩ (by decide),
   (C10_add_file_idempotent (ManifestBuilder.mk [("a", ⟨"a", [⟨1, 2⟩], 16⟩)] 16)
      "b").2 (by decide)⟩
